import Mathlib

/-!
Shallow embedding of the play/pause/stop state machine of the sandbox
editor (crates/sandbox_engine/src/editor_state.rs together with the
toolbar logic of crates/sandbox_editor/src/main.rs, function toolbar_ui),
and proofs of the specified properties.

The transform and velocity payloads are carried opaquely by the machine:
the Rust code only ever copies whole Transform and Vec2 values, never
computes with their float components, so the embedding is parametric in
the payload types T (for Transform) and V (for Vec2).
-/

set_option autoImplicit false

namespace SandboxEditor

/-- Entity is an opaque identifier into the external entity store
(bevy Entity); modelled as a natural number. -/
abbrev Entity := Nat

/-- State of a single entity for snapshot/restore
(struct EntityState in editor_state.rs). -/
structure EntityState (T V : Type) where
  /-- The entity this state belongs to. -/
  entity : Entity
  /-- The transform of the entity at snapshot time. -/
  transform : T
  /-- Optional velocity (as Vec2) if the entity had one. -/
  velocity : Option V
  deriving DecidableEq, Repr

/-- Snapshot of entity states for restoring after stopping playback
(struct EditorSnapshot in editor_state.rs). -/
structure EditorSnapshot (T V : Type) where
  /-- Stored entity transforms and velocities for restoration. -/
  entity_states : List (EntityState T V)
  deriving DecidableEq, Repr

/-- The derive(Default) of EditorSnapshot: an empty entity_states vector. -/
instance {T V : Type} : Inhabited (EditorSnapshot T V) := ⟨⟨[]⟩⟩

/-- The transform-bearing entity store (the part of the bevy World seen by
Query<(Entity, Transform)>): an association list of entity/transform
pairs; a real ECS world yields each entity at most once, which the
theorems assume as a Nodup hypothesis where it matters. -/
abbrev Store (T : Type) := List (Entity × T)

/-- Reading the transform of one entity from the store
(Query::get on the transform query). -/
def Store.getTransform {T : Type} (store : Store T) (e : Entity) : Option T :=
  (store.find? (fun p => p.1 == e)).map Prod.snd

/-- Pointwise transform write used by the store update: if the pair belongs
to entity e, its transform is replaced by t, otherwise it is untouched. -/
def writeOne {T : Type} (e : Entity) (t : T) (p : Entity × T) : Entity × T :=
  if p.1 == e then (p.1, t) else p

/-- Writing the transform of one entity in the store
(Query::get_mut followed by assignment); an entity absent from the
store is untouched, so the write on a vanished entity is a no-op. -/
def Store.setTransform {T : Type} (store : Store T) (e : Entity) (t : T) : Store T :=
  store.map (writeOne e t)

/-- Embedding of fn capture_snapshot: the snapshot list is cleared and one
EntityState with velocity None is pushed per (entity, transform) pair of
the query. -/
def capture_snapshot {T V : Type} (_snapshot : EditorSnapshot T V) (query : Store T) :
    EditorSnapshot T V :=
  ⟨query.map (fun p => ⟨p.1, p.2, none⟩)⟩

/-- Embedding of fn restore_snapshot: for each stored EntityState whose
entity still resolves in the transform query, the transform is
overwritten with the stored one; entities that no longer exist are
skipped. -/
def restore_snapshot {T V : Type} (snapshot : EditorSnapshot T V) (store : Store T) : Store T :=
  snapshot.entity_states.foldl (fun st state => st.setTransform state.entity state.transform) store

/-- Editor execution state for play/pause/stop controls
(enum EditorPlayState). -/
inductive EditorPlayState where
  /-- Editor is stopped (the derive(Default) variant). -/
  | Stopped
  /-- Game is running. -/
  | Playing
  /-- Game is paused. -/
  | Paused
  deriving DecidableEq, Repr

/-- The four transition requests a user can issue from the toolbar. -/
inductive EditorEvent where
  | Play
  | Pause
  | Resume
  | Stop
  deriving DecidableEq, Repr

/-- Embedding of the toolbar logic of toolbar_ui (sandbox_editor main.rs):
which next state, if any, a click on the given control requests in the
given current state. Play is enabled unless already Playing, Pause only
while Playing, Resume is only shown while Paused, Stop is enabled unless
already Stopped; a disabled or hidden control cannot be clicked, so the
request is none. -/
def toolbar_request (s : EditorPlayState) (e : EditorEvent) : Option EditorPlayState :=
  match e with
  | .Play => if s ≠ .Playing then some .Playing else none
  | .Pause => if s = .Playing then some .Paused else none
  | .Resume => if s = .Paused then some .Playing else none
  | .Stop => if s ≠ .Stopped then some .Stopped else none

/-- The state relevant to the machine: the current EditorPlayState, the
EditorSnapshot resource, and the transform-bearing entity store. -/
structure EditorWorld (T V : Type) where
  state : EditorPlayState
  snapshot : EditorSnapshot T V
  store : Store T
  deriving DecidableEq, Repr

/-- Embedding of the schedule registration in EditorStatePlugin::build:
OnEnter(Playing) runs capture_snapshot and OnEnter(Stopped) runs
restore_snapshot; entering Paused runs nothing. -/
def onEnter {T V : Type} (s : EditorPlayState) (w : EditorWorld T V) : EditorWorld T V :=
  match s with
  | .Playing => { w with snapshot := capture_snapshot w.snapshot w.store }
  | .Stopped => { w with store := restore_snapshot w.snapshot w.store }
  | .Paused => w

/-- One tick in which the given control was clicked: if the toolbar issues
a state request, the state change is applied and the OnEnter systems of
the entered state run; otherwise nothing happens. -/
def step {T V : Type} (w : EditorWorld T V) (e : EditorEvent) : EditorWorld T V :=
  match toolbar_request w.state e with
  | none => w
  | some s => onEnter s { w with state := s }

/-- A run of the machine over a sequence of clicked controls. -/
def run {T V : Type} (w : EditorWorld T V) (events : List EditorEvent) : EditorWorld T V :=
  events.foldl step w

/-- Embedding of app startup: init_state enters the default state Stopped,
firing its OnEnter schedule on the default (empty) snapshot resource. -/
def startup {T V : Type} (store : Store T) : EditorWorld T V :=
  onEnter .Stopped { state := .Stopped, snapshot := default, store := store }

/-!
Helper lemmas. The central tool is a normal form for restore_snapshot: the
fold of per-entity writes over the snapshot list equals a single map over
the store, applying to each store pair the cumulative effect of all
snapshot writes that target its entity.
-/

/-- Cumulative effect of a list of snapshot writes on a single store pair. -/
def applyWrites {T V : Type} (l : List (EntityState T V)) (p : Entity × T) : Entity × T :=
  l.foldl (fun q st => writeOne st.entity st.transform q) p

theorem applyWrites_cons {T V : Type} (st : EntityState T V) (rest : List (EntityState T V))
    (p : Entity × T) :
    applyWrites (st :: rest) p = applyWrites rest (writeOne st.entity st.transform p) := rfl

theorem writeOne_fst {T : Type} (e : Entity) (t : T) (p : Entity × T) :
    (writeOne e t p).1 = p.1 := by
  unfold writeOne; split <;> rfl

theorem applyWrites_fst {T V : Type} (l : List (EntityState T V)) (p : Entity × T) :
    (applyWrites l p).1 = p.1 := by
  induction l generalizing p with
  | nil => rfl
  | cons st rest ih => rw [applyWrites_cons, ih, writeOne_fst]

theorem restore_eq_map {T V : Type} (snap : EditorSnapshot T V) (store : Store T) :
    restore_snapshot snap store = store.map (applyWrites snap.entity_states) := by
  obtain ⟨l⟩ := snap
  induction l generalizing store with
  | nil =>
    show store = store.map (applyWrites [])
    exact (List.map_congr_left (fun p _ => rfl)).symm.trans (List.map_id store) |>.symm
  | cons st rest ih =>
    have h1 : restore_snapshot ⟨st :: rest⟩ store =
        restore_snapshot ⟨rest⟩ (store.setTransform st.entity st.transform) := rfl
    rw [h1, ih, Store.setTransform, List.map_map]
    exact List.map_congr_left (fun p _ => rfl)

theorem applyWrites_not_mem {T V : Type} (l : List (EntityState T V)) (p : Entity × T)
    (h : p.1 ∉ l.map (fun st => st.entity)) : applyWrites l p = p := by
  induction l with
  | nil => rfl
  | cons st rest ih =>
    simp only [List.map_cons, List.mem_cons, not_or] at h
    have hw : writeOne st.entity st.transform p = p := by
      unfold writeOne
      rw [if_neg]
      simp only [beq_iff_eq]
      exact h.1
    rw [applyWrites_cons, hw]
    exact ih h.2

theorem applyWrites_eq_find {T V : Type} (l : List (EntityState T V)) (p : Entity × T)
    (h : (l.map (fun st => st.entity)).Nodup) :
    applyWrites l p =
      match l.find? (fun st => st.entity == p.1) with
      | some st => (p.1, st.transform)
      | none => p := by
  induction l with
  | nil => rfl
  | cons st rest ih =>
    simp only [List.map_cons, List.nodup_cons] at h
    rw [applyWrites_cons]
    by_cases he : st.entity = p.1
    · rw [List.find?_cons_of_pos _ (by simp [he])]
      have hw : writeOne st.entity st.transform p = (p.1, st.transform) := by
        unfold writeOne
        rw [if_pos (by simp [he])]
      rw [hw]
      exact applyWrites_not_mem rest (p.1, st.transform) (he ▸ h.1)
    · rw [List.find?_cons_of_neg _ (by simp [he])]
      have hw : writeOne st.entity st.transform p = p := by
        unfold writeOne
        rw [if_neg]
        simp only [beq_iff_eq]
        exact fun hh => he hh.symm
      rw [hw]
      exact ih h.2

theorem find?_perm_of_unique {α : Type} (pred : α → Bool) (l l2 : List α)
    (hperm : l.Perm l2)
    (huniq : ∀ a, a ∈ l → ∀ b, b ∈ l → pred a = true → pred b = true → a = b) :
    l.find? pred = l2.find? pred := by
  cases h : l.find? pred with
  | none =>
    cases h2 : l2.find? pred with
    | none => rfl
    | some b =>
      have hpb := List.find?_some h2
      have hmb : b ∈ l := hperm.mem_iff.mpr (List.mem_of_find?_eq_some h2)
      exact absurd hpb (List.find?_eq_none.mp h b hmb)
  | some a =>
    have hpa := List.find?_some h
    have hma := List.mem_of_find?_eq_some h
    cases h2 : l2.find? pred with
    | none => exact absurd hpa (List.find?_eq_none.mp h2 a (hperm.mem_iff.mp hma))
    | some b =>
      have hpb := List.find?_some h2
      have hmb : b ∈ l := hperm.mem_iff.mpr (List.mem_of_find?_eq_some h2)
      rw [huniq a hma b hmb hpa hpb]

theorem find?_fst_map_applyWrites {T V : Type} (l : List (EntityState T V)) (store : Store T)
    (e : Entity) :
    (store.map (applyWrites l)).find? (fun q => q.1 == e) =
      (store.find? (fun q => q.1 == e)).map (applyWrites l) := by
  rw [List.find?_map]
  have hc : ((fun (q : Entity × T) => q.1 == e) ∘ applyWrites l) = fun q => q.1 == e := by
    funext q
    simp [Function.comp, applyWrites_fst]
  rw [hc]

theorem find?_key_of_mem {T : Type} (store : Store T) (e : Entity)
    (h : e ∈ store.map Prod.fst) :
    ∃ q, store.find? (fun q => q.1 == e) = some q ∧ q.1 = e := by
  have hex : (store.find? (fun q => q.1 == e)).isSome := by
    rw [List.find?_isSome]
    simp only [List.mem_map] at h
    obtain ⟨p, hp, hpe⟩ := h
    exact ⟨p, hp, by simp [hpe]⟩
  obtain ⟨q, hq⟩ := Option.isSome_iff_exists.mp hex
  refine ⟨q, hq, ?_⟩
  simpa using List.find?_some hq

theorem find?_eq_of_mem_nodup {T V : Type} (l : List (EntityState T V)) (st : EntityState T V)
    (hnd : (l.map (fun s => s.entity)).Nodup) (hmem : st ∈ l) :
    l.find? (fun s => s.entity == st.entity) = some st := by
  have hex : (l.find? (fun s => s.entity == st.entity)).isSome := by
    rw [List.find?_isSome]
    exact ⟨st, hmem, by simp⟩
  obtain ⟨st2, h2⟩ := Option.isSome_iff_exists.mp hex
  have hp2 : st2.entity = st.entity := by simpa using List.find?_some h2
  have hm2 := List.mem_of_find?_eq_some h2
  rw [h2, List.inj_on_of_nodup_map hnd hm2 hmem hp2]

theorem getTransform_restore_of_find {T V : Type} (snap : EditorSnapshot T V) (store : Store T)
    (e : Entity) (st0 : EntityState T V)
    (hnd : (snap.entity_states.map (fun st => st.entity)).Nodup)
    (hfind : snap.entity_states.find? (fun st => st.entity == e) = some st0)
    (hsurv : e ∈ store.map Prod.fst) :
    (restore_snapshot snap store).getTransform e = some st0.transform := by
  rw [restore_eq_map]
  unfold Store.getTransform
  rw [find?_fst_map_applyWrites]
  obtain ⟨q, hq, hqe⟩ := find?_key_of_mem store e hsurv
  rw [hq]
  have haw : applyWrites snap.entity_states q = (q.1, st0.transform) := by
    rw [applyWrites_eq_find _ _ hnd, hqe, hfind]
  simp [haw]

theorem zip_map_snd {α β : Type} (l : List α) (f : α → β) :
    ∀ pr ∈ l.zip (l.map f), pr.2 = f pr.1 := by
  induction l with
  | nil => intro pr h; simp at h
  | cons a rest ih =>
    intro pr h
    rw [List.map_cons, List.zip_cons_cons] at h
    rcases List.mem_cons.mp h with h1 | h2
    · rw [h1]
    · exact ih pr h2

theorem step_state {T V : Type} (w : EditorWorld T V) (e : EditorEvent) :
    (step w e).state = (toolbar_request w.state e).getD w.state := by
  unfold step
  cases h : toolbar_request w.state e with
  | none => rfl
  | some s => cases s <;> rfl

/-!
Claim theorems.
-/

/-- A concrete world sitting in Paused: the snapshot holds the transform 0
for entity 0, captured when Playing was entered, while the store now holds
transform 1 for entity 0 (the entity moved while playing). -/
def pausedWorld : EditorWorld Nat Nat :=
  { state := .Paused
    snapshot := ⟨[⟨0, 0, none⟩]⟩
    store := [(0, 1)] }

/-- C1: the claim states that the Paused to Playing transition triggered by
Resume leaves the Snapshot resource completely unchanged. The code
registers capture_snapshot on OnEnter(Playing), which also fires when
Playing is entered from Paused, so Resume re-captures the snapshot: in the
concrete world above the stored snapshot changes from transform 0 to the
current transform 1 for entity 0. -/
theorem resume_recaptures_snapshot :
    (step pausedWorld EditorEvent.Resume).state = EditorPlayState.Playing
    ∧ (step pausedWorld EditorEvent.Resume).snapshot ≠ pausedWorld.snapshot
    ∧ (step pausedWorld EditorEvent.Resume).snapshot
        = capture_snapshot pausedWorld.snapshot pausedWorld.store := by
  refine ⟨rfl, by decide, rfl⟩

/-- C3: capture completeness. For every prior snapshot and every store of
transform-bearing entities, the captured snapshot projected onto its
(entity, transform) pairs is exactly the query list: it has exactly as many
pairs as the store has entities, each pair carrying that entity and its
transform at that instant, with no filtering of any kind. -/
theorem capture_complete {T V : Type} (snap : EditorSnapshot T V) (query : Store T) :
    ((capture_snapshot snap query).entity_states.map (fun st => (st.entity, st.transform))
        = query)
    ∧ (capture_snapshot snap query).entity_states.length = query.length := by
  constructor
  · show (query.map (fun p => (⟨p.1, p.2, none⟩ : EntityState T V))).map
        (fun st => (st.entity, st.transform)) = query
    rw [List.map_map]
    exact (List.map_congr_left (fun p _ => rfl)).trans (List.map_id query)
  · show (query.map (fun p => (⟨p.1, p.2, none⟩ : EntityState T V))).length = query.length
    exact List.length_map query _

/-- C7: invalid transition requests are no-ops. A Pause request while
Stopped and a Resume request while Playing (and while Stopped) find their
control disabled or hidden, so the toolbar issues no state request and the
world is left exactly unchanged; more generally any event for which the
toolbar issues no request leaves the world unchanged, and the step
function is total, so the machine never errors. -/
theorem invalid_requests_noop {T V : Type} (w : EditorWorld T V) :
    (w.state = EditorPlayState.Stopped → step w EditorEvent.Pause = w)
    ∧ (w.state = EditorPlayState.Playing → step w EditorEvent.Resume = w)
    ∧ (w.state = EditorPlayState.Stopped → step w EditorEvent.Resume = w)
    ∧ (∀ e, toolbar_request w.state e = none → step w e = w) := by
  refine ⟨fun h => ?_, fun h => ?_, fun h => ?_, fun e he => ?_⟩
  · simp [step, toolbar_request, h]
  · simp [step, toolbar_request, h]
  · simp [step, toolbar_request, h]
  · simp [step, he]

/-- C7 witness: starting in a concrete Stopped world and requesting Resume,
the world (in particular the state) remains unchanged. -/
theorem invalid_requests_noop_witness :
    step { state := .Stopped, snapshot := ⟨[]⟩, store := [(0, 4)] } EditorEvent.Resume
      = ({ state := .Stopped, snapshot := ⟨[]⟩, store := [(0, 4)] } : EditorWorld Nat Nat) :=
  (invalid_requests_noop { state := .Stopped, snapshot := ⟨[]⟩, store := [(0, 4)] }).2.2.1 rfl

/-- C9: the base capture mechanism records no velocity or other physical
state: every EntityState pushed into the snapshot by capture_snapshot has
its velocity field equal to none. -/
theorem capture_velocity_none {T V : Type} (snap : EditorSnapshot T V) (query : Store T) :
    ∀ st ∈ (capture_snapshot snap query).entity_states, st.velocity = none := by
  intro st hst
  simp only [capture_snapshot, List.mem_map] at hst
  obtain ⟨p, _, rfl⟩ := hst
  rfl

/-- C9 witness: capturing a concrete one-entity store yields a state whose
velocity is none. -/
theorem capture_velocity_none_witness :
    ∃ st ∈ (capture_snapshot (⟨[]⟩ : EditorSnapshot Nat Nat) [(0, 5)]).entity_states,
      st.velocity = none :=
  ⟨⟨0, 5, none⟩, by decide,
    capture_velocity_none (⟨[]⟩ : EditorSnapshot Nat Nat) [(0, 5)] ⟨0, 5, none⟩ (by decide)⟩

/-- C10: restoring from the default (empty) snapshot changes nothing: the
store is returned exactly as it was. In particular the initial entry into
Stopped at startup, which runs restore_snapshot on the default snapshot
before any capture has happened, leaves every transform (indeed the whole
store and the whole world) unchanged. -/
theorem restore_empty_snapshot_noop {T V : Type} (store : Store T) :
    restore_snapshot (default : EditorSnapshot T V) store = store
    ∧ (startup (T := T) (V := V) store).store = store
    ∧ (startup (T := T) (V := V) store).state = EditorPlayState.Stopped
    ∧ (startup (T := T) (V := V) store).snapshot = default := by
  exact ⟨rfl, rfl, rfl, rfl⟩

/-- C5: snapshot freshness. Whenever the Play control is enabled (state not
Playing, which covers both Play entries of a Stopped, Playing, Stopped,
Playing sequence), the snapshot produced by the Play step is fully
determined by the current store: it equals the capture of the current
store pair by pair, and replacing whatever snapshot was previously held by
any other snapshot does not change the result, so the restore that follows
the second session can only ever use the second capture. -/
theorem capture_replaces_snapshot {T V : Type} (w : EditorWorld T V)
    (snap2 : EditorSnapshot T V) (h : w.state ≠ EditorPlayState.Playing) :
    (step w EditorEvent.Play).snapshot.entity_states
        = w.store.map (fun p => ⟨p.1, p.2, none⟩)
    ∧ (step { w with snapshot := snap2 } EditorEvent.Play).snapshot
        = (step w EditorEvent.Play).snapshot := by
  constructor
  · simp [step, toolbar_request, h, onEnter, capture_snapshot]
  · simp [step, toolbar_request, h, onEnter, capture_snapshot]

/-- A concrete world back in Stopped after a first play session: the stale
first capture recorded transform 3 for entity 0, and the entity has since
moved to transform 8. -/
def secondSessionWorld : EditorWorld Nat Nat :=
  { state := .Stopped
    snapshot := ⟨[⟨0, 3, none⟩]⟩
    store := [(0, 8)] }

/-- C5 witness: second Play entry of a two-session run on the concrete
world above. The snapshot captured by the new Play step records the moved
transform 8, and swapping the stale snapshot for any other (here the empty
one) changes nothing. -/
theorem capture_replaces_snapshot_witness :
    (step secondSessionWorld EditorEvent.Play).snapshot.entity_states
      = secondSessionWorld.store.map (fun p => ⟨p.1, p.2, none⟩)
    ∧ (step { secondSessionWorld with snapshot := ⟨[]⟩ } EditorEvent.Play).snapshot
      = (step secondSessionWorld EditorEvent.Play).snapshot :=
  capture_replaces_snapshot secondSessionWorld ⟨[]⟩ (by decide)

/-- C8: state-machine invariant. After any sequence of requests the active
state is one of Stopped, Playing, Paused; and whenever a step changes the
state, the pair of old and new state is one of the rows of the transition
table: Stopped to Playing, Playing to Paused, Paused to Playing, or
Playing-or-Paused to Stopped. In particular no step ever goes directly
from Stopped to Paused. -/
theorem state_machine_invariant {T V : Type} (w : EditorWorld T V)
    (events : List EditorEvent) (e : EditorEvent) :
    (run w events).state
        ∈ [EditorPlayState.Stopped, EditorPlayState.Playing, EditorPlayState.Paused]
    ∧ ((step w e).state ≠ w.state →
        (w.state = EditorPlayState.Stopped ∧ (step w e).state = EditorPlayState.Playing)
        ∨ (w.state = EditorPlayState.Playing ∧ (step w e).state = EditorPlayState.Paused)
        ∨ (w.state = EditorPlayState.Paused ∧ (step w e).state = EditorPlayState.Playing)
        ∨ ((w.state = EditorPlayState.Playing ∨ w.state = EditorPlayState.Paused)
            ∧ (step w e).state = EditorPlayState.Stopped))
    ∧ ¬(w.state = EditorPlayState.Stopped ∧ (step w e).state = EditorPlayState.Paused) := by
  refine ⟨?_, ?_, ?_⟩
  · cases (run w events).state <;> decide
  · rw [step_state]
    cases hw : w.state <;> cases e <;> decide
  · rw [step_state]
    cases hw : w.state <;> cases e <;> decide

/-- A concrete Stopped world used to exercise the state-machine
invariant. -/
def stoppedWorld : EditorWorld Nat Nat :=
  { state := .Stopped
    snapshot := ⟨[]⟩
    store := [(0, 2)] }

/-- C8 witness: the concrete Stopped world above stepped with Play changes
state, and the transition taken is one of the table rows (here the Stopped
to Playing row); the state after the run Play then Pause is among the
three states. -/
theorem state_machine_invariant_witness :
    (run stoppedWorld [EditorEvent.Play, EditorEvent.Pause]).state
      ∈ [EditorPlayState.Stopped, EditorPlayState.Playing, EditorPlayState.Paused]
    ∧ ((stoppedWorld.state = EditorPlayState.Stopped
          ∧ (step stoppedWorld EditorEvent.Play).state = EditorPlayState.Playing)
        ∨ (stoppedWorld.state = EditorPlayState.Playing
          ∧ (step stoppedWorld EditorEvent.Play).state = EditorPlayState.Paused)
        ∨ (stoppedWorld.state = EditorPlayState.Paused
          ∧ (step stoppedWorld EditorEvent.Play).state = EditorPlayState.Playing)
        ∨ ((stoppedWorld.state = EditorPlayState.Playing
            ∨ stoppedWorld.state = EditorPlayState.Paused)
          ∧ (step stoppedWorld EditorEvent.Play).state = EditorPlayState.Stopped)) :=
  ⟨(state_machine_invariant stoppedWorld
      [EditorEvent.Play, EditorEvent.Pause] EditorEvent.Play).1,
    (state_machine_invariant stoppedWorld
      [EditorEvent.Play, EditorEvent.Pause] EditorEvent.Play).2.1 (by decide)⟩

theorem capture_entities {T V : Type} (snap : EditorSnapshot T V) (store : Store T) :
    (capture_snapshot snap store).entity_states.map (fun st => st.entity)
      = store.map Prod.fst := by
  show (store.map fun p => (⟨p.1, p.2, none⟩ : EntityState T V)).map (fun st => st.entity) = _
  rw [List.map_map]
  rfl

theorem find?_capture {T V : Type} (snap : EditorSnapshot T V) (store : Store T) (e : Entity) :
    (capture_snapshot snap store).entity_states.find? (fun st => st.entity == e)
      = (store.find? (fun p => p.1 == e)).map (fun p => ⟨p.1, p.2, none⟩) := by
  show (store.map fun p => (⟨p.1, p.2, none⟩ : EntityState T V)).find? _ = _
  rw [List.find?_map]
  rfl

/-- C2: play and stop round trip. Starting from a Stopped world whose store
lists each entity once, entering Playing via the Play control (which
captures the snapshot), then arbitrarily replacing the store contents
while playing, then transitioning to Stopped via the Stop control (which
restores the snapshot): every entity that had a transform at capture time
and still exists at restore time ends with its capture-time transform. -/
theorem play_stop_roundtrip {T V : Type} (w : EditorWorld T V) (m : Store T)
    (hs : w.state = EditorPlayState.Stopped)
    (hnd : (w.store.map Prod.fst).Nodup)
    (e : Entity) (t : T)
    (hcap : w.store.getTransform e = some t)
    (hsurv : e ∈ m.map Prod.fst) :
    (step { step w EditorEvent.Play with store := m } EditorEvent.Stop).store.getTransform e
      = some t := by
  have hred : (step { step w EditorEvent.Play with store := m } EditorEvent.Stop).store
      = restore_snapshot (capture_snapshot w.snapshot w.store) m := by
    simp [step, toolbar_request, hs, onEnter]
  rw [hred]
  unfold Store.getTransform at hcap
  cases hf : w.store.find? (fun p => p.1 == e) with
  | none => rw [hf] at hcap; simp at hcap
  | some p0 =>
    rw [hf] at hcap
    have hpt : p0.2 = t := by simpa using hcap
    have hfindc := find?_capture w.snapshot w.store e
    rw [hf] at hfindc
    have hres := getTransform_restore_of_find (capture_snapshot w.snapshot w.store) m e
      ⟨p0.1, p0.2, none⟩ (by rw [capture_entities]; exact hnd) hfindc hsurv
    rw [hres, hpt]

/-- A concrete Stopped world for the round-trip scenario: two entities with
transforms 5 and 6. -/
def roundtripWorld : EditorWorld Nat Nat :=
  { state := .Stopped
    snapshot := ⟨[]⟩
    store := [(0, 5), (1, 6)] }

/-- C2 witness: playing from the concrete world above, deleting entity 0
and moving entity 1 to transform 9 during the session, then stopping:
entity 1 is restored to its capture-time transform 6. -/
theorem play_stop_roundtrip_witness :
    (step { step roundtripWorld EditorEvent.Play with store := [(1, 9)] }
        EditorEvent.Stop).store.getTransform 1 = some 6 :=
  play_stop_roundtrip roundtripWorld [(1, 9)] rfl (by decide) 1 6 (by decide) (by decide)

/-- C4: best-effort restore. For every snapshot listing each entity once
and every store: restore never fails (it is a total function), it leaves
the list of existing entities exactly as it was (so snapshot entries whose
entity vanished are silent no-ops), and it overwrites the transform of
every snapshot entity that still exists with its stored value. -/
theorem restore_best_effort {T V : Type} (snap : EditorSnapshot T V) (store : Store T)
    (hnd : (snap.entity_states.map (fun st => st.entity)).Nodup) :
    ((restore_snapshot snap store).map Prod.fst = store.map Prod.fst)
    ∧ ∀ st ∈ snap.entity_states, st.entity ∈ store.map Prod.fst →
        (restore_snapshot snap store).getTransform st.entity = some st.transform := by
  constructor
  · rw [restore_eq_map, List.map_map]
    exact List.map_congr_left (fun p _ => applyWrites_fst _ _)
  · intro st hmem hsurv
    exact getTransform_restore_of_find snap store st.entity st hnd
      (find?_eq_of_mem_nodup _ st hnd hmem) hsurv

/-- C4 witness: a concrete snapshot holds entries for entity 0 (transform
5) and entity 3 (transform 7); entity 3 no longer exists in the store.
Restore keeps the entity list unchanged and still overwrites entity 0 with
its stored transform 5. -/
theorem restore_best_effort_witness :
    (restore_snapshot (⟨[⟨0, 5, none⟩, ⟨3, 7, none⟩]⟩ : EditorSnapshot Nat Nat)
        [(0, 1), (1, 2)]).map Prod.fst = ([(0, 1), (1, 2)] : Store Nat).map Prod.fst
    ∧ (restore_snapshot (⟨[⟨0, 5, none⟩, ⟨3, 7, none⟩]⟩ : EditorSnapshot Nat Nat)
        [(0, 1), (1, 2)]).getTransform 0 = some 5 :=
  ⟨(restore_best_effort ⟨[⟨0, 5, none⟩, ⟨3, 7, none⟩]⟩ [(0, 1), (1, 2)] (by decide)).1,
    (restore_best_effort ⟨[⟨0, 5, none⟩, ⟨3, 7, none⟩]⟩ [(0, 1), (1, 2)] (by decide)).2
      ⟨0, 5, none⟩ (by decide) (by decide)⟩

/-- C6: restore frame condition. For every snapshot and store, restore
never creates or destroys entities (the entity list of the store is
preserved exactly); every store pair whose entity does not appear in the
snapshot is left completely untouched; and for snapshots listing each
entity once, restoring any permutation of the snapshot entries yields the
same store, so the result is independent of the write order. -/
theorem restore_frame_condition {T V : Type} (snap : EditorSnapshot T V) (store : Store T) :
    ((restore_snapshot snap store).map Prod.fst = store.map Prod.fst)
    ∧ (∀ pr ∈ store.zip (restore_snapshot snap store),
        pr.1.1 ∉ snap.entity_states.map (fun st => st.entity) → pr.2 = pr.1)
    ∧ (∀ snap2 : EditorSnapshot T V,
        snap.entity_states.Perm snap2.entity_states →
        (snap.entity_states.map (fun st => st.entity)).Nodup →
        restore_snapshot snap2 store = restore_snapshot snap store) := by
  refine ⟨?_, ?_, ?_⟩
  · rw [restore_eq_map, List.map_map]
    exact List.map_congr_left (fun p _ => applyWrites_fst _ _)
  · intro pr hpr hnotin
    rw [restore_eq_map] at hpr
    rw [zip_map_snd store (applyWrites snap.entity_states) pr hpr]
    exact applyWrites_not_mem _ _ hnotin
  · intro snap2 hperm hnd
    rw [restore_eq_map, restore_eq_map]
    apply List.map_congr_left
    intro p _
    have hnd2 : (snap2.entity_states.map (fun st => st.entity)).Nodup :=
      ((hperm.map (fun st => st.entity)).nodup_iff).mp hnd
    rw [applyWrites_eq_find _ _ hnd2, applyWrites_eq_find _ _ hnd]
    have hfind : snap.entity_states.find? (fun st => st.entity == p.1)
        = snap2.entity_states.find? (fun st => st.entity == p.1) := by
      apply find?_perm_of_unique _ _ _ hperm
      intro a ha b hb hpa hpb
      have ha2 : a.entity = p.1 := by simpa using hpa
      have hb2 : b.entity = p.1 := by simpa using hpb
      exact List.inj_on_of_nodup_map hnd ha hb (ha2.trans hb2.symm)
    rw [hfind]

/-- C6 witness: restoring the two concrete snapshot entries for entities 0
and 1 in either order produces the same store. -/
theorem restore_frame_condition_witness :
    restore_snapshot (⟨[⟨1, 7, none⟩, ⟨0, 5, none⟩]⟩ : EditorSnapshot Nat Nat) [(0, 1), (1, 2)]
      = restore_snapshot (⟨[⟨0, 5, none⟩, ⟨1, 7, none⟩]⟩ : EditorSnapshot Nat Nat)
          [(0, 1), (1, 2)] :=
  (restore_frame_condition ⟨[⟨0, 5, none⟩, ⟨1, 7, none⟩]⟩ [(0, 1), (1, 2)]).2.2
    ⟨[⟨1, 7, none⟩, ⟨0, 5, none⟩]⟩ (by decide) (by decide)

end SandboxEditor
